import Mathlib

/-!
Shallow embedding of `gnarl.py` (Lightweight Annotated Schema Serializable
Objects): the validation engine `Schema.validate`, the combinators `And`/`Or`,
the dictionary shapes with `Optional` markers, the capability classes
(`Enum`, `UUID`, `Timestamp`) and the schema-backed record type `Schemed`.

Modelling conventions:
* Python values are the inductive `Val`.  Floats are opaque literals (no
  float arithmetic occurs in the library).  Dictionary keys are strings
  (every schema and every input in the claims uses string keys).
* Machine-level details that the library never observes are abstracted:
  the memory address inside the default `repr` of a `Schemed` instance, the
  hash-based iteration order of Python sets (modelled as first-occurrence
  order), and the behaviour of the external `delorean`/`uuid` parsers
  (abstracted as function parameters).
* Python `==` is `pyEq`.  `Schemed` defines no `__eq__`, so `==` on records
  is object identity; identity is modelled by the `oid` field carried by
  instance values, and constructors allocate a caller-supplied fresh `oid`.
-/

namespace Gnarl

/-- The four container kinds that a container-literal schema can have. -/
inductive ContKind where
  | listK
  | tupleK
  | setK
  | frozensetK
deriving DecidableEq, Repr

/-- Python runtime values, as far as the library observes them. -/
inductive Val where
  | pynone
  | bool (b : Bool)
  | int (n : Int)
  | float (lit : String)
  | str (s : String)
  | cont (k : ContKind) (sub : Option String) (elems : List Val)
  | dict (sub : Option String) (entries : List (String × Val))
  | enumv (cls : String) (member : String) (vrep : String)
  | uuidv (hex : String) (gnarl : Bool) (oid : Nat)
  | tsv (cls : String) (rep : String) (oid : Nat)
  | recordv (cls : String) (oid : Nat) (fields : List (String × Val))

/-- Python exceptions the embedded code can raise.  `schemaError` is the
engine's own `SchemaError`; everything else is some other exception,
carried as its `repr`. -/
inductive Exc where
  | schemaError (msg : String)
  | valueError (argrep : String)
  | otherExc (rep : String)
deriving DecidableEq, Repr

/-- The built-in classes that occur as type-literal schemas. -/
inductive PyType where
  | intT
  | floatT
  | strT
  | boolT
  | noneT
  | dictT
  | listT
  | tupleT
  | setT
  | frozensetT
deriving DecidableEq, Repr

/-- The class of a container literal (`type(s)` for a list/tuple/set/frozenset). -/
def contType : ContKind → PyType
  | .listK => .listT
  | .tupleK => .tupleT
  | .setK => .setT
  | .frozensetK => .frozensetT

/-- Python `repr` of the built-in classes. -/
def typeRepr : PyType → String
  | .intT => "<class 'int'>"
  | .floatT => "<class 'float'>"
  | .strT => "<class 'str'>"
  | .boolT => "<class 'bool'>"
  | .noneT => "<class 'NoneType'>"
  | .dictT => "<class 'dict'>"
  | .listT => "<class 'list'>"
  | .tupleT => "<class 'tuple'>"
  | .setT => "<class 'set'>"
  | .frozensetT => "<class 'frozenset'>"

/-- Python `isinstance` against the built-in classes.  `bool` is a subclass
of `int`; container subclasses (`sub = some _`) are instances of their base
kind. -/
def isinst : Val → PyType → Bool
  | .bool _, .boolT => true
  | .bool _, .intT => true
  | .int _, .intT => true
  | .float _, .floatT => true
  | .str _, .strT => true
  | .pynone, .noneT => true
  | .dict _ _, .dictT => true
  | .cont .listK _ _, .listT => true
  | .cont .tupleK _ _, .tupleT => true
  | .cont .setK _ _, .setT => true
  | .cont .frozensetK _ _, .frozensetT => true
  | _, _ => false

/-- Python `repr` of a string.  The claims only use strings with no quote,
backslash or non-printable characters, for which CPython produces exactly
the single-quoted form. -/
def pyReprStr (s : String) : String := "'" ++ s ++ "'"

/-- `", ".join(parts)`. -/
def joinCS (parts : List String) : String := String.intercalate ", " parts

mutual

/-- Python `repr` of a value.  The address in the default object `repr` of a
`Schemed` instance is abstracted away (no claim observes it). -/
def pyRepr : Val → String
  | .pynone => "None"
  | .bool b => if b then "True" else "False"
  | .int n => toString n
  | .float lit => lit
  | .str s => pyReprStr s
  | .cont .listK _ es => "[" ++ joinCS (pyReprList es) ++ "]"
  | .cont .tupleK _ [e] => "(" ++ pyRepr e ++ ",)"
  | .cont .tupleK _ es => "(" ++ joinCS (pyReprList es) ++ ")"
  | .cont .setK _ [] => "set()"
  | .cont .setK _ es => "\x7b" ++ joinCS (pyReprList es) ++ "\x7d"
  | .cont .frozensetK _ [] => "frozenset()"
  | .cont .frozensetK _ es => "frozenset(\x7b" ++ joinCS (pyReprList es) ++ "\x7d)"
  | .dict _ es => "\x7b" ++ joinCS (pyReprEntries es) ++ "\x7d"
  | .enumv c m vr => "<" ++ c ++ "." ++ m ++ ": " ++ vr ++ ">"
  | .uuidv h _ _ => "UUID(" ++ pyReprStr h ++ ")"
  | .tsv _ r _ => r
  | .recordv c _ _ => "<" ++ c ++ " object>"

def pyReprList : List Val → List String
  | [] => []
  | v :: vs => pyRepr v :: pyReprList vs

def pyReprEntries : List (String × Val) → List String
  | [] => []
  | (k, v) :: es => (pyReprStr k ++ ": " ++ pyRepr v) :: pyReprEntries es

end

/-- `d[k]` / `k in d` on a Python dict, whose keys are unique. -/
def pyLookup : List (String × Val) → String → Option Val
  | [], _ => Option.none
  | (k', v) :: es, k => if k' = k then some v else pyLookup es k

/-- `k in d`. -/
def hasKey (d : List (String × Val)) (k : String) : Bool := (pyLookup d k).isSome

theorem pyLookup_sizeOf {d : List (String × Val)} {k : String} {w : Val}
    (h : pyLookup d k = some w) : sizeOf w < sizeOf d := by
  induction d with
  | nil => simp [pyLookup] at h
  | cons e es ih =>
    obtain ⟨k', v⟩ := e
    by_cases hk : k' = k
    · simp [pyLookup, hk] at h
      subst h
      simp
      omega
    · simp [pyLookup, hk] at h
      have := ih h
      simp
      omega

/-- Key set of `es2` contained in `es1` (no value comparison). -/
def keysIncl (es2 es1 : List (String × Val)) : Bool :=
  es2.all fun kv => hasKey es1 kv.1

mutual

/-- Python `==`.  `bool` compares with `int` (`True == 1`); floats are
opaque literals, so numeric `int`/`float` cross-equality is not modelled
(no claim compares a float with an int).  `Enum` members are singletons,
so their `==` is class + member name.  `uuid.UUID` and `Delorean` compare
by value.  `Schemed` defines no `__eq__`, hence identity (`oid`).  Set
values are compared in iteration order (no claim compares sets). -/
def pyEq : Val → Val → Bool
  | .pynone, .pynone => true
  | .bool a, .bool b => a = b
  | .bool a, .int n => (if a then (1 : Int) else 0) = n
  | .int n, .bool b => n = (if b then (1 : Int) else 0)
  | .int a, .int b => a = b
  | .float a, .float b => a = b
  | .str a, .str b => a = b
  | .cont k1 _ es1, .cont k2 _ es2 => k1 = k2 && pyEqList es1 es2
  | .dict _ es1, .dict _ es2 => keysIncl es2 es1 && pyEqEntries es1 es2
  | .enumv c1 m1 _, .enumv c2 m2 _ => c1 = c2 && m1 = m2
  | .uuidv h1 _ _, .uuidv h2 _ _ => h1 = h2
  | .tsv _ r1 _, .tsv _ r2 _ => r1 = r2
  | .recordv _ o1 _, .recordv _ o2 _ => o1 = o2
  | _, _ => false

def pyEqList : List Val → List Val → Bool
  | [], [] => true
  | a :: as_, b :: bs => pyEq a b && pyEqList as_ bs
  | _, _ => false

/-- Every entry of the first dict has an `==` value under the same key in
the second. -/
def pyEqEntries : List (String × Val) → List (String × Val) → Bool
  | [], _ => true
  | (k, v) :: es, d =>
    (match _h : pyLookup d k with
     | some w => pyEq v w
     | Option.none => false)
    && pyEqEntries es d

end

/-- A dict-shape value: required sub-shape, `Optional(schema)`, or
`Optional(schema, default=v)` (the `type(v) is Optional` test of the
source). -/
inductive FieldMode where
  | required
  | optNoDefault
  | optDefault (d : Val)

/-- Schema shapes.  Constructors correspond to the dispatch branches of
`Schema.validate` (source lines 152-203): `cap` is any non-class object
with a callable `validate` attribute; `typHook` is a class that also has a
callable `validate` classmethod (`Enum`/`UUID`/`Timestamp`/`Schemed`
subclasses), which the engine dispatches through the hook, never through
`isinstance`; `contLit`/`dictLit` are container and dict literals; `typ` a
plain built-in class; `orC`/`andC` the `Or`/`And` combinators (namedtuples
with a `validate` method, hence reached through the duck-typed first
branch); `pred` a plain callable; `lit` a literal value.  `StringMatch`
and `Use` are not needed by any claim; both would be further `cap` hooks. -/
inductive Shape where
  | cap (rep : String) (hook : Val → Except Exc Val)
  | typHook (t : PyType) (rep : String) (hook : Val → Except Exc Val)
  | contLit (k : ContKind) (members : List Shape)
  | dictLit (entries : List (String × FieldMode × Shape))
  | typ (t : PyType)
  | orC (args : List Shape) (err : Option String)
  | andC (args : List Shape) (err : Option String)
  | pred (rep : String) (f : Val → Except Exc Bool)
  | lit (v : Val)

mutual

/-- Python `repr` of a shape (`And.__repr__` prints `Or(...)`/`And(...)`;
namedtuple `repr` for `Optional`; the address in the `repr` of the
no-default sentinel object is abstracted). -/
def shapeRepr : Shape → String
  | .cap rep _ => rep
  | .typHook _ rep _ => rep
  | .contLit .listK ms => "[" ++ joinCS (shapeReprList ms) ++ "]"
  | .contLit .tupleK [m] => "(" ++ shapeRepr m ++ ",)"
  | .contLit .tupleK ms => "(" ++ joinCS (shapeReprList ms) ++ ")"
  | .contLit .setK ms => "\x7b" ++ joinCS (shapeReprList ms) ++ "\x7d"
  | .contLit .frozensetK ms => "frozenset(\x7b" ++ joinCS (shapeReprList ms) ++ "\x7d)"
  | .dictLit es => "\x7b" ++ joinCS (shapeReprEntries es) ++ "\x7d"
  | .typ t => typeRepr t
  | .orC args _ => "Or(" ++ joinCS (shapeReprList args) ++ ")"
  | .andC args _ => "And(" ++ joinCS (shapeReprList args) ++ ")"
  | .pred rep _ => rep
  | .lit v => pyRepr v

def shapeReprList : List Shape → List String
  | [] => []
  | s :: ss => shapeRepr s :: shapeReprList ss

def shapeReprEntries : List (String × FieldMode × Shape) → List String
  | [] => []
  | (k, .required, sh) :: es =>
    (pyReprStr k ++ ": " ++ shapeRepr sh) :: shapeReprEntries es
  | (k, .optNoDefault, sh) :: es =>
    (pyReprStr k ++ ": Optional(schema=" ++ shapeRepr sh ++ ", default=<object object>)")
      :: shapeReprEntries es
  | (k, .optDefault d, sh) :: es =>
    (pyReprStr k ++ ": Optional(schema=" ++ shapeRepr sh ++ ", default=" ++ pyRepr d ++ ")")
      :: shapeReprEntries es

end

/-- `repr(Or(args))`, as used in the generic first-match failure message. -/
def orRepr (args : List Shape) : String := "Or(" ++ joinCS (shapeReprList args) ++ ")"

/-- Python `repr` of an exception value. -/
def excRepr : Exc → String
  | .schemaError m => "SchemaError(" ++ pyReprStr m ++ ")"
  | .valueError a => "ValueError(" ++ a ++ ")"
  | .otherExc r => r

/-- `Schema.__pcall` (source lines 137-150): on `SchemaError`, re-raise it
unchanged unless a custom error message is configured, in which case raise
`SchemaError` with exactly that message; on any other exception, raise
`SchemaError` with the custom message, or with the formatted call
description followed by `" raised "` and the `repr` of the exception. -/
def pcallFmt (selfErr : Option String) (res : Except Exc Val) (fmt : String) :
    Except Exc Val :=
  match res with
  | .ok v => .ok v
  | .error (.schemaError m) => .error (.schemaError (selfErr.getD m))
  | .error ex => .error (.schemaError (selfErr.getD (fmt ++ " raised " ++ excRepr ex)))

/-- The type-literal failure message (source lines 191-192). -/
def instErrMsg (e : Option String) (data : Val) (t : PyType) : String :=
  e.getD (pyRepr data ++ " should be instance of " ++ typeRepr t)

/-- Insert into a `≤`-sorted list of strings. -/
def insSorted (x : String) : List String → List String
  | [] => [x]
  | y :: ys => if x ≤ y then x :: y :: ys else y :: insSorted x ys

/-- Python `sorted` on a list of (distinct) strings: lexicographic by code
point, which is the order of `≤` on `String`. -/
def sortStrs : List String → List String
  | [] => []
  | x :: xs => insSorted x (sortStrs xs)

/-- Building a `set`/`frozenset` from an iterable drops `==`-duplicates;
the hash-based iteration order is modelled as first-occurrence order. -/
def dedupPy : List Val → List Val
  | [] => []
  | v :: vs => v :: dedupPy (vs.filter fun w => !(pyEq v w))
termination_by vs => vs.length
decreasing_by
  simp only [List.length_cons]
  exact Nat.lt_succ_of_le (List.length_filter_le _ _)

/-- `type(data)(generator)`: rebuild a container with the concrete class of
the input (`k` is the base kind; the subclass tag travels along). -/
def mkCont (k : ContKind) (sub : Option String) (vs : List Val) : Val :=
  match k with
  | .listK => .cont k sub vs
  | .tupleK => .cont k sub vs
  | .setK => .cont k sub (dedupPy vs)
  | .frozensetK => .cont k sub (dedupPy vs)

/-- `type(v) is not Optional` for a dict-shape value. -/
def isReq : FieldMode → Bool
  | .required => true
  | _ => false

/-- `s.keys()` of a dict shape, in declaration order. -/
def declaredKeys (entries : List (String × FieldMode × Shape)) : List String :=
  entries.map fun ent => ent.1

/-- `set(k for k, v in s.items() if type(v) is not Optional)` (source line
173), as a list in declaration order. -/
def requiredKeys (entries : List (String × FieldMode × Shape)) : List String :=
  entries.filterMap fun ent => if isReq ent.2.1 then some ent.1 else Option.none

/-- The keys the validation loop marks as seen: declared keys present in
the input, in declaration order. -/
def seenKeys (entries : List (String × FieldMode × Shape))
    (des : List (String × Val)) : List String :=
  (declaredKeys entries).filter fun k => hasKey des k

/-- `required - seen` (source line 175): required keys absent from the
input.  A Python dict shape has unique keys, so no deduplication is
needed. -/
def missingKeys (entries : List (String × FieldMode × Shape))
    (des : List (String × Val)) : List String :=
  (requiredKeys entries).filter fun k => !(hasKey des k)

/-- `data.keys() - s.keys()` (source line 177): input keys not declared in
the shape, in input order (a Python dict has unique keys). -/
def extraKeys (entries : List (String × FieldMode × Shape))
    (des : List (String × Val)) : List String :=
  (des.map fun kv => kv.1).filter fun k => !((declaredKeys entries).contains k)

/-- Optional-with-default keys that were not seen, paired with their raw
default values, in declaration order (the source iterates a Python set;
the order is unobservable because committed mappings compare as dicts). -/
def defaultsFor (entries : List (String × FieldMode × Shape)) (seen : List String) :
    List (String × Val) :=
  entries.filterMap fun ent =>
    match ent.2.1 with
    | .optDefault d => if seen.contains ent.1 then Option.none else some (ent.1, d)
    | _ => Option.none

mutual

/-- `Schema(s, e).validate(data)` (source lines 152-203).  The match on the
`Shape` constructors realises the source's fixed dispatch priority:
callable `validate` attribute first, then container literal, dict literal,
class, callable, literal equality. -/
def validateS (s : Shape) (e : Option String) (data : Val) : Except Exc Val :=
  match s with
  | .cap rep hook =>
    pcallFmt e (hook data) (rep ++ ".validate(" ++ pyRepr data ++ ")")
  | .typHook _ rep hook =>
    pcallFmt e (hook data) (rep ++ ".validate(" ++ pyRepr data ++ ")")
  | .contLit k members =>
    match data with
    | .cont dk sub elems =>
      if dk = k then
        match validateElems members e elems with
        | .ok vs => .ok (mkCont k sub vs)
        | .error ex => .error ex
      else .error (.schemaError (instErrMsg e data (contType k)))
    | _ => .error (.schemaError (instErrMsg e data (contType k)))
  | .dictLit entries =>
    match data with
    | .dict sub des =>
      match dictPass entries e des with
      | .error ex => .error ex
      | .ok (ne, seen) =>
        let missing := (requiredKeys entries).filter fun k => !seen.contains k
        if missing.isEmpty then
          if (extraKeys entries des).isEmpty then
            .ok (.dict sub (ne ++ defaultsFor entries seen))
          else
            .error (.schemaError ("Wrong keys in " ++ pyRepr data ++ ": "
              ++ joinCS ((sortStrs (extraKeys entries des)).map pyReprStr)))
        else
          .error (.schemaError ("Missing keys: "
            ++ joinCS ((sortStrs missing).map pyReprStr)))
    | _ => .error (.schemaError (instErrMsg e data .dictT))
  | .typ t =>
    if isinst data t then .ok data else .error (.schemaError (instErrMsg e data t))
  | .orC args oerr =>
    pcallFmt e (orLoop args oerr data (pyRepr data ++ " did not validate " ++ orRepr args))
      (orRepr args ++ ".validate(" ++ pyRepr data ++ ")")
  | .andC args aerr =>
    pcallFmt e (andLoop args aerr data)
      ("And(" ++ joinCS (shapeReprList args) ++ ").validate(" ++ pyRepr data ++ ")")
  | .pred rep f =>
    match f data with
    | .ok b =>
      if b then .ok data
      else .error (.schemaError (e.getD (rep ++ "(" ++ pyRepr data
        ++ ") should evaluate to True")))
    | .error (.schemaError m) => .error (.schemaError (e.getD m))
    | .error ex =>
      .error (.schemaError (e.getD (rep ++ "(" ++ pyRepr data ++ ") raised "
        ++ excRepr ex)))
  | .lit v =>
    if pyEq v data then .ok data
    else .error (.schemaError (e.getD (pyRepr data ++ " should be " ++ pyRepr v)))
termination_by (sizeOf s, 0)

/-- The dict-shape pass over declared keys (source lines 163-172): validate
each declared key present in the input, recording it as seen; the first
failing value aborts. -/
def dictPass (entries : List (String × FieldMode × Shape)) (e : Option String)
    (des : List (String × Val)) :
    Except Exc (List (String × Val) × List String) :=
  match entries with
  | [] => .ok ([], [])
  | (k, _m, sh) :: rest =>
    match pyLookup des k with
    | Option.none => dictPass rest e des
    | some v =>
      match validateS sh e v with
      | .error ex => .error ex
      | .ok v' =>
        match dictPass rest e des with
        | .error ex => .error ex
        | .ok (ne, seen) => .ok ((k, v') :: ne, k :: seen)
termination_by (sizeOf entries, 0)

/-- Validate every element of a container against `Or(*members, error=e)`
(source lines 159-160); the first failing element aborts. -/
def validateElems (members : List Shape) (e : Option String) (ds : List Val) :
    Except Exc (List Val) :=
  match ds with
  | [] => .ok []
  | d :: rest =>
    match orLoop members e d (pyRepr d ++ " did not validate " ++ orRepr members) with
    | .error ex => .error ex
    | .ok v =>
      match validateElems members e rest with
      | .error ex => .error ex
      | .ok vs => .ok (v :: vs)
termination_by (sizeOf members, 1 + sizeOf ds)

/-- `Or.validate` (source lines 75-82): try alternatives in order through
`Schema(s, self.error)`, return the first success, swallow `SchemaError`s,
and when all alternatives are exhausted raise the custom message or the
generic `"... did not validate ..."` message (`genMsg` is computed from the
full argument list at entry). -/
def orLoop (args : List Shape) (oe : Option String) (data : Val) (genMsg : String) :
    Except Exc Val :=
  match args with
  | [] => .error (.schemaError (oe.getD genMsg))
  | a :: rest =>
    match validateS a oe data with
    | .ok v => .ok v
    | .error (.schemaError _) => orLoop rest oe data genMsg
    | .error ex => .error ex
termination_by (sizeOf args, 0)

/-- `And.validate` (source lines 66-69): feed each step's output into the
next step. -/
def andLoop (args : List Shape) (ae : Option String) (data : Val) :
    Except Exc Val :=
  match args with
  | [] => .ok data
  | a :: rest =>
    match validateS a ae data with
    | .ok v => andLoop rest ae v
    | .error ex => .error ex
termination_by (sizeOf args, 0)

end

/-- `Or(*args, error=oe).validate(data)` as called directly (not through an
enclosing `Schema`). -/
def orValidate (args : List Shape) (oe : Option String) (data : Val) :
    Except Exc Val :=
  orLoop args oe data (pyRepr data ++ " did not validate " ++ orRepr args)

/-! ### Capability classes: `Enum`, `UUID`, `Timestamp` (source lines 289-397) -/

/-- A `gnarl.Enum` subclass: its name and its members (name, value). -/
structure EnumCls where
  name : String
  members : List (String × Val)

/-- `isinstance(data, cls)` for an `Enum` subclass `cls` (enum classes with
members cannot be subclassed further, so the class name matches exactly). -/
def isEnumInst (cls : EnumCls) : Val → Bool
  | .enumv c _ _ => c = cls.name
  | _ => false

/-- `cls(data)`: standard-library enum lookup of the member whose value
compares `==` to `data`; raises `ValueError` when there is none.  Members
are singletons, so the constructor returns the canonical member value. -/
def enumCall (cls : EnumCls) (data : Val) : Except Exc Val :=
  match cls.members.find? fun nv => pyEq nv.2 data with
  | some (n, v) => .ok (.enumv cls.name n (pyRepr v))
  | Option.none =>
    .error (.valueError (pyRepr data ++ " is not a valid " ++ cls.name))

/-- `Enum.validate` (source lines 306-308). -/
def EnumValidate (cls : EnumCls) (data : Val) : Except Exc Val :=
  if isEnumInst cls data then .ok data else enumCall cls data

/-- `isinstance(data, UUID)` for the gnarl `UUID` subclass. -/
def isUUIDInst : Val → Bool
  | .uuidv _ g _ => g
  | _ => false

/-- `UUID.validate` (source lines 370-377): a gnarl `UUID` instance is
returned as-is; a standard-library `uuid.UUID` is re-wrapped via
`cls(str(data))` into a fresh gnarl instance with the same value; anything
else goes to the standard-library `UUID` string constructor, whose parsing
is external and abstracted as `parse`. -/
def UUIDValidate (parse : Val → Except Exc Val) (fresh : Nat) (data : Val) :
    Except Exc Val :=
  if isUUIDInst data then .ok data
  else
    match data with
    | .uuidv hex _ _ => .ok (.uuidv hex true fresh)
    | _ => parse data

/-- `isinstance(data, Timestamp)`. -/
def isTsInst : Val → Bool
  | .tsv c _ _ => c = "Timestamp"
  | _ => false

/-- `Timestamp.validate` (source lines 331-345): an instance of the class is
returned as-is; the `datetime`, `Delorean` and string-parsing branches all
construct a new instance through the external `delorean` library, which is
abstracted as `conv`. -/
def TimestampValidate (conv : Val → Except Exc Val) (data : Val) :
    Except Exc Val :=
  if isTsInst data then .ok data else conv data

/-! ### The record type `Schemed` (source lines 400-453) -/

/-- `d[k] = v` on a Python dict: overwrite in place, or append a new key. -/
def dictSet : List (String × Val) → String → Val → List (String × Val)
  | [], k, v => [(k, v)]
  | (k', w) :: es, k, v =>
    if k' = k then (k', v) :: es else (k', w) :: dictSet es k v

/-- `d.update(kvs)`: merge the new entries into `d`, later entries winning. -/
def dictMerge (d : List (String × Val)) (kvs : List (String × Val)) :
    List (String × Val) :=
  kvs.foldl (fun acc kv => dictSet acc kv.1 kv.2) d

/-- `isinstance(data, cls)` for a `Schemed` subclass `cls`. -/
def isRecInst (cls : String) : Val → Bool
  | .recordv c _ _ => c = cls
  | _ => false

/-- `Schemed.update` (source lines 429-433) on a committed state `st`:
build `dict(self._data)`, merge the given entries into the copy, run the
record's schema over the candidate, and return the validated mapping; on
failure the exception propagates and the committed state is not touched
(`object.__setattr__` is only reached on success).  `dict(x)` on a
non-mapping committed state would raise `TypeError`. -/
def recUpdateV (entries : List (String × FieldMode × Shape)) (st : Val)
    (kvs : List (String × Val)) : Except Exc Val :=
  match st with
  | .dict _ es => validateS (.dictLit entries) Option.none (.dict Option.none (dictMerge es kvs))
  | _ => .error (.otherExc "TypeError('cannot convert to dict')")

/-- `Schemed.__init__` (source lines 412-414): the backing store starts
empty and the constructor arguments go through `update`. -/
def recInit (entries : List (String × FieldMode × Shape))
    (kvs : List (String × Val)) : Except Exc Val :=
  recUpdateV entries (.dict Option.none []) kvs

/-- One mutation of a live record: `update(...)` or an attribute
assignment (`__setattr__`, source lines 423-427, which routes non-private
names through `update({key: value})` and stores private names outside the
committed mapping). -/
inductive ROp where
  | upd (kvs : List (String × Val))
  | setf (k : String) (v : Val)

/-- The committed mapping after one operation: a successful update swaps
the validated mapping in; a failed one raises and leaves the committed
mapping verbatim; a private-name assignment never touches it. -/
def recStep (entries : List (String × FieldMode × Shape)) (st : Val) : ROp → Val
  | .upd kvs =>
    match recUpdateV entries st kvs with
    | .ok st' => st'
    | .error _ => st
  | .setf k v =>
    if k.startsWith "_" then st
    else
      match recUpdateV entries st [(k, v)] with
      | .ok st' => st'
      | .error _ => st

/-- The committed mapping satisfies the record's schema: it is a value the
schema's validation actually produced. -/
def SatSchema (entries : List (String × FieldMode × Shape)) (st : Val) : Prop :=
  ∃ d, validateS (.dictLit entries) Option.none d = .ok st

/-- `Schemed.jsonable` / `ToPrimitive` (source lines 435-437): the committed
mapping itself. -/
def jsonableR : Val → Val
  | .recordv _ _ fields => .dict Option.none fields
  | v => v

/-- `Schemed.validate` / `FromPrimitive` (source lines 446-453): a record of
this class is returned as-is; a mapping is passed as keyword arguments to
the constructor, which validates it and commits the result into a new
record object (with a fresh identity `fresh`); anything else raises
`ValueError(data)` — not the engine's `SchemaError`. -/
def SchemedFromPrim (cls : String) (entries : List (String × FieldMode × Shape))
    (fresh : Nat) (data : Val) : Except Exc Val :=
  if isRecInst cls data then .ok data
  else
    match data with
    | .dict _ des =>
      match recInit entries des with
      | .ok (.dict _ committed) => .ok (.recordv cls fresh committed)
      | .ok v => .ok v
      | .error ex => .error ex
    | _ => .error (.valueError (pyRepr data))

/-! ### Concrete fixtures (the `Point` record of the reference tests) -/

/-- The schema `{ "x": float, "y": float }`. -/
def pointEntries : List (String × FieldMode × Shape) :=
  [("x", .required, .typ .floatT), ("y", .required, .typ .floatT)]

/-- The committed mapping `{"x": 1.0, "y": 2.0}`. -/
def pointData : List (String × Val) :=
  [("x", .float "1.0"), ("y", .float "2.0")]

/-- The hook view of a shape: `some (repr, hook)` exactly when the shape
object exposes a callable `validate` attribute through which the engine's
first dispatch branch delegates (`cap` objects, and classes with a
`validate` classmethod). -/
def shapeHook : Shape → Option (String × (Val → Except Exc Val))
  | .cap rep hook => some (rep, hook)
  | .typHook _ rep hook => some (rep, hook)
  | _ => Option.none

/-! ### Helper lemmas about the dict-shape pass -/

theorem dictPass_ok_struct {e : Option String} {des : List (String × Val)}
    {entries : List (String × FieldMode × Shape)} {ne : List (String × Val)}
    {seen : List String} (h : dictPass entries e des = .ok (ne, seen)) :
    seen = seenKeys entries des ∧ ne.map (fun kv => kv.1) = seen := by
  induction entries generalizing ne seen with
  | nil =>
    simp [dictPass] at h
    obtain ⟨h1, h2⟩ := h
    subst h1
    subst h2
    simp [seenKeys, declaredKeys]
  | cons ent rest ih =>
    obtain ⟨k, m, sh⟩ := ent
    cases hl : pyLookup des k with
    | none =>
      simp only [dictPass, hl] at h
      have := ih h
      simpa [seenKeys, declaredKeys, hasKey, hl] using this
    | some v =>
      simp only [dictPass, hl] at h
      cases hv : validateS sh e v with
      | error ex => simp [hv] at h
      | ok v' =>
        simp only [hv] at h
        cases hr : dictPass rest e des with
        | error ex => simp [hr] at h
        | ok p =>
          obtain ⟨ne', seen'⟩ := p
          simp only [hr] at h
          obtain ⟨hne, hseen⟩ := Prod.mk.injEq .. ▸ (Except.ok.injEq .. ▸ h)
          obtain ⟨h1, h2⟩ := ih hr
          subst hne hseen
          constructor
          · simp [seenKeys, declaredKeys, hasKey, hl, h1.symm]
            simpa [seenKeys] using h1
          · simp [h2, h1]

theorem dictPass_ok_of_values {e : Option String} {des : List (String × Val)}
    {entries : List (String × FieldMode × Shape)}
    (h : ∀ ent ∈ entries, ∀ v, pyLookup des ent.1 = some v →
      ∃ w, validateS ent.2.2 e v = .ok w) :
    ∃ ne, dictPass entries e des = .ok (ne, seenKeys entries des) := by
  induction entries with
  | nil => exact ⟨[], by simp [dictPass, seenKeys, declaredKeys]⟩
  | cons ent rest ih =>
    obtain ⟨k, m, sh⟩ := ent
    obtain ⟨ne, hne⟩ := ih fun ent hm => h ent (List.mem_cons_of_mem _ hm)
    cases hl : pyLookup des k with
    | none =>
      refine ⟨ne, ?_⟩
      simp only [dictPass, hl, hne]
      simp [seenKeys, declaredKeys, hasKey, hl]
    | some v =>
      obtain ⟨w, hw⟩ := h (k, m, sh) (List.mem_cons_self _ _) v hl
      refine ⟨(k, w) :: ne, ?_⟩
      simp only [dictPass, hl, hw, hne]
      simp [seenKeys, declaredKeys, hasKey, hl]

theorem requiredKeys_subset_declared {entries : List (String × FieldMode × Shape)}
    {k : String} (h : k ∈ requiredKeys entries) : k ∈ declaredKeys entries := by
  simp only [requiredKeys, List.mem_filterMap] at h
  obtain ⟨ent, hm, hsome⟩ := h
  by_cases hr : isReq ent.2.1 <;> simp [hr] at hsome
  simp only [declaredKeys, List.mem_map]
  exact ⟨ent, hm, hsome⟩

theorem mem_seenKeys {entries : List (String × FieldMode × Shape)}
    {des : List (String × Val)} {k : String} :
    k ∈ seenKeys entries des ↔ k ∈ declaredKeys entries ∧ hasKey des k = true := by
  simp [seenKeys, List.mem_filter]

theorem contains_eq_decide (l : List String) (a : String) :
    l.contains a = decide (a ∈ l) := by
  induction l with
  | nil => rfl
  | cons x xs ih => simp [List.contains, List.elem_cons, ih]

theorem missing_filter_eq {entries : List (String × FieldMode × Shape)}
    {des : List (String × Val)} :
    ((requiredKeys entries).filter fun k => !(seenKeys entries des).contains k)
      = missingKeys entries des := by
  apply List.filter_congr
  intro k hk
  have hd := requiredKeys_subset_declared hk
  rw [contains_eq_decide]
  by_cases hh : hasKey des k = true
  · have hmem : k ∈ seenKeys entries des := mem_seenKeys.2 ⟨hd, hh⟩
    simp [hmem, hh]
  · have hf : hasKey des k = false := by
      cases hx : hasKey des k
      · rfl
      · exact absurd hx hh
    have hmem : k ∉ seenKeys entries des := fun hc => hh (mem_seenKeys.1 hc).2
    simp [hmem, hf]

theorem pyLookup_append_of_not_mem {a b : List (String × Val)} {k : String}
    (h : k ∉ a.map fun kv => kv.1) : pyLookup (a ++ b) k = pyLookup b k := by
  induction a with
  | nil => rfl
  | cons kv rest ih =>
    obtain ⟨k', v⟩ := kv
    have h1 : ¬(k' = k) := fun he => h (by simp [he])
    have h2 : k ∉ rest.map fun kv => kv.1 := fun hm => h (by simp; right; exact (by simpa using hm))
    simp [pyLookup, h1, ih h2]

theorem pyLookup_defaultsFor {entries : List (String × FieldMode × Shape)}
    {seen : List String} {k : String} {d : Val} {sh : Shape}
    (hnodup : (declaredKeys entries).Nodup)
    (hmem : (k, FieldMode.optDefault d, sh) ∈ entries)
    (hseen : seen.contains k = false) :
    pyLookup (defaultsFor entries seen) k = some d := by
  have hknot : k ∉ seen := by
    intro hm
    rw [contains_eq_decide] at hseen
    simp [hm] at hseen
  induction entries with
  | nil => simp at hmem
  | cons ent rest ih =>
    simp [declaredKeys] at hnodup
    rcases List.mem_cons.1 hmem with heq | hmem'
    · subst heq
      simp [defaultsFor, List.filterMap_cons, hknot, pyLookup]
    · obtain ⟨k1, m1, sh1⟩ := ent
      have hne : ¬(k1 = k) := by
        intro he
        subst he
        exact hnodup.1 (FieldMode.optDefault d) sh hmem'
      have htail := ih (by simpa [declaredKeys] using hnodup.2) hmem'
      cases m1 with
      | required => simpa [defaultsFor, List.filterMap_cons] using htail
      | optNoDefault => simpa [defaultsFor, List.filterMap_cons] using htail
      | optDefault d1 =>
        by_cases hs : k1 ∈ seen
        · simpa [defaultsFor, List.filterMap_cons, hs] using htail
        · have hstep : defaultsFor ((k1, FieldMode.optDefault d1, sh1) :: rest) seen
              = (k1, d1) :: defaultsFor rest seen := by
            simp [defaultsFor, List.filterMap_cons, hs]
          rw [hstep]
          simpa [pyLookup, hne] using htail

/-! ### Helper lemmas about `validateS` on dict shapes -/

theorem validateS_missing {entries : List (String × FieldMode × Shape)}
    {e : Option String} {sub : Option String} {des : List (String × Val)}
    (hvals : ∀ ent ∈ entries, ∀ v, pyLookup des ent.1 = some v →
      ∃ w, validateS ent.2.2 e v = .ok w)
    (hmiss : missingKeys entries des ≠ []) :
    validateS (.dictLit entries) e (.dict sub des) =
      .error (.schemaError ("Missing keys: "
        ++ joinCS ((sortStrs (missingKeys entries des)).map pyReprStr))) := by
  obtain ⟨ne, hne⟩ := dictPass_ok_of_values hvals
  have hisEmpty :
      ((requiredKeys entries).filter fun k => !(seenKeys entries des).contains k).isEmpty
        = false := by
    rw [missing_filter_eq]
    cases hml : missingKeys entries des
    · exact absurd hml hmiss
    · rfl
  simp only [validateS, hne, hisEmpty, Bool.false_eq_true, if_false]
  rw [missing_filter_eq]

theorem validateS_wrongKeys {entries : List (String × FieldMode × Shape)}
    {e : Option String} {sub : Option String} {des : List (String × Val)}
    (hvals : ∀ ent ∈ entries, ∀ v, pyLookup des ent.1 = some v →
      ∃ w, validateS ent.2.2 e v = .ok w)
    (hnomiss : missingKeys entries des = [])
    (hex : extraKeys entries des ≠ []) :
    validateS (.dictLit entries) e (.dict sub des) =
      .error (.schemaError ("Wrong keys in " ++ pyRepr (.dict sub des) ++ ": "
        ++ joinCS ((sortStrs (extraKeys entries des)).map pyReprStr))) := by
  obtain ⟨ne, hne⟩ := dictPass_ok_of_values hvals
  have hisEmpty :
      ((requiredKeys entries).filter fun k => !(seenKeys entries des).contains k).isEmpty
        = true := by
    rw [missing_filter_eq, hnomiss]
    rfl
  have hexEmpty : (extraKeys entries des).isEmpty = false := by
    cases hxl : extraKeys entries des
    · exact absurd hxl hex
    · rfl
  simp only [validateS, hne, hisEmpty, hexEmpty, if_true, Bool.false_eq_true, if_false]

theorem validateS_dictLit_ok {entries : List (String × FieldMode × Shape)}
    {e : Option String} {sub : Option String} {des : List (String × Val)} {res : Val}
    (h : validateS (.dictLit entries) e (.dict sub des) = .ok res) :
    ∃ ne, dictPass entries e des = .ok (ne, seenKeys entries des) ∧
      (ne.map fun kv => kv.1) = seenKeys entries des ∧
      res = .dict sub (ne ++ defaultsFor entries (seenKeys entries des)) := by
  cases hdp : dictPass entries e des with
  | error ex => simp [validateS, hdp] at h
  | ok p =>
    obtain ⟨ne, seen⟩ := p
    obtain ⟨hseen, hkeys⟩ := dictPass_ok_struct hdp
    subst hseen
    refine ⟨ne, rfl, hkeys, ?_⟩
    cases hm : ((requiredKeys entries).filter fun k =>
        !(seenKeys entries des).contains k).isEmpty with
    | false =>
      simp only [validateS, hdp, hm, Bool.false_eq_true, if_false] at h
      simp at h
    | true =>
      cases hx : (extraKeys entries des).isEmpty with
      | false =>
        simp only [validateS, hdp, hm, hx, if_true, Bool.false_eq_true, if_false] at h
        simp at h
      | true =>
        simp only [validateS, hdp, hm, hx, if_true] at h
        exact (Except.ok.inj h).symm

/-! ### Helper lemmas about the `Or` combinator -/

theorem orLoop_all_fail {oe : Option String} {data : Val} {g : String}
    {args : List Shape}
    (h : ∀ m ∈ args, ∃ msg, validateS m oe data = .error (.schemaError msg)) :
    orLoop args oe data g = .error (.schemaError (oe.getD g)) := by
  induction args with
  | nil => simp [orLoop]
  | cons a rest ih =>
    obtain ⟨msg, hmsg⟩ := h a (List.mem_cons_self _ _)
    simp only [orLoop, hmsg]
    exact ih fun m hm => h m (List.mem_cons_of_mem _ hm)

theorem orLoop_first_ok {oe : Option String} {data : Val} {g : String} {v : Val}
    {pre : List Shape} {s : Shape} {post : List Shape}
    (hpre : ∀ m ∈ pre, ∃ msg, validateS m oe data = .error (.schemaError msg))
    (hs : validateS s oe data = .ok v) :
    orLoop (pre ++ s :: post) oe data g = .ok v := by
  induction pre with
  | nil => simp [orLoop, hs]
  | cons a rest ih =>
    obtain ⟨msg, hmsg⟩ := hpre a (List.mem_cons_self _ _)
    simp only [List.cons_append, orLoop, hmsg]
    exact ih fun m hm => hpre m (List.mem_cons_of_mem _ hm)

theorem validateElems_of_forall2 {members : List Shape} {e : Option String}
    {elems vs : List Val}
    (h : List.Forall₂ (fun d v => orValidate members e d = .ok v) elems vs) :
    validateElems members e elems = .ok vs := by
  induction h with
  | nil => simp [validateElems]
  | cons hd _tl ih =>
    simp only [validateElems, orValidate] at hd ⊢
    simp [hd, ih]

/-! ### Helper lemmas about container shapes -/

theorem isinst_cont_self (k : ContKind) (sub : Option String) (elems : List Val) :
    isinst (.cont k sub elems) (contType k) = true := by
  cases k <;> rfl

theorem contLit_wrong_kind {k : ContKind} {members : List Shape}
    {e : Option String} {data : Val}
    (h : isinst data (contType k) = false) :
    validateS (.contLit k members) e data
      = .error (.schemaError (instErrMsg e data (contType k))) := by
  cases data with
  | cont dk sub elems =>
    by_cases hdk : dk = k
    · subst hdk
      rw [isinst_cont_self] at h
      exact absurd h (by simp)
    · simp [validateS, hdk]
  | pynone => simp [validateS]
  | bool b => simp [validateS]
  | int n => simp [validateS]
  | float l => simp [validateS]
  | str s => simp [validateS]
  | dict sub es => simp [validateS]
  | enumv c m vr => simp [validateS]
  | uuidv hx g o => simp [validateS]
  | tsv c r o => simp [validateS]
  | recordv c o f => simp [validateS]

/-! ### Helper lemmas about the record type -/

theorem satSchema_of_update_ok {entries : List (String × FieldMode × Shape)}
    {st : Val} {kvs : List (String × Val)} {st' : Val}
    (h : recUpdateV entries st kvs = .ok st') : SatSchema entries st' := by
  cases st <;> simp [recUpdateV] at h
  exact ⟨_, h⟩

theorem satSchema_step {entries : List (String × FieldMode × Shape)}
    {st : Val} {op : ROp} (h : SatSchema entries st) :
    SatSchema entries (recStep entries st op) := by
  cases op with
  | upd kvs =>
    cases hu : recUpdateV entries st kvs with
    | ok st' => simpa [recStep, hu] using satSchema_of_update_ok hu
    | error ex => simpa [recStep, hu] using h
  | setf k v =>
    by_cases hp : k.startsWith "_"
    · simpa [recStep, hp] using h
    · cases hu : recUpdateV entries st [(k, v)] with
      | ok st' => simpa [recStep, hp, hu] using satSchema_of_update_ok hu
      | error ex => simpa [recStep, hp, hu] using h

theorem satSchema_foldl {entries : List (String × FieldMode × Shape)}
    (ops : List ROp) :
    ∀ st, SatSchema entries st →
      SatSchema entries (ops.foldl (recStep entries) st) := by
  induction ops with
  | nil => intro st h; simpa using h
  | cons op rest ih => intro st h; exact ih _ (satSchema_step h)

/-! ### Claim theorems -/

/-- C2 (counterexample): validating `{}` against the shape
`{"a": int, "b": int}` does fail with a single aggregated message, but the
message is `"Missing keys: 'a', 'b'"` — the keys are rendered with Python
`repr`, so string keys carry quotes — not the exact text
`"Missing keys: a, b"` stated by the claim. -/
theorem C2_counterexample :
    validateS (.dictLit [("a", .required, .typ .intT), ("b", .required, .typ .intT)])
      Option.none (.dict Option.none [])
      = .error (.schemaError "Missing keys: 'a', 'b'")
    ∧ "Missing keys: 'a', 'b'" ≠ "Missing keys: a, b" := by
  constructor
  · simp [validateS, dictPass, pyLookup, isReq, requiredKeys, extraKeys, declaredKeys,
      missingKeys, seenKeys, defaultsFor, hasKey, sortStrs, insSorted, joinCS, pyReprStr]
    decide
  · decide

/-- C2 (amended): for every dict shape and every input mapping in which
every declared key that is present validates against its sub-shape (a
failing present value raises that failure first) and from which at least
one required key is absent, validation fails with a single aggregated
`SchemaError` listing all missing required keys, sorted, comma+space
separated, each rendered with `repr` (so string keys are quoted:
`"Missing keys: 'a', 'b'"` for `{}` against `{"a": int, "b": int}`). -/
theorem C2_missing_keys_aggregated (entries : List (String × FieldMode × Shape))
    (e sub : Option String) (des : List (String × Val))
    (hvals : ∀ ent ∈ entries, ∀ v, pyLookup des ent.1 = some v →
      ∃ w, validateS ent.2.2 e v = .ok w)
    (hmiss : missingKeys entries des ≠ []) :
    validateS (.dictLit entries) e (.dict sub des)
      = .error (.schemaError ("Missing keys: "
        ++ joinCS ((sortStrs (missingKeys entries des)).map pyReprStr))) :=
  validateS_missing hvals hmiss

/-- C2 (witness): the amended theorem applied to `{}` against
`{"a": int, "b": int}` yields exactly `"Missing keys: 'a', 'b'"`. -/
theorem C2_missing_keys_aggregated_witness :
    validateS (.dictLit [("a", .required, .typ .intT), ("b", .required, .typ .intT)])
      Option.none (.dict Option.none [])
      = .error (.schemaError "Missing keys: 'a', 'b'") := by
  have h := C2_missing_keys_aggregated
    [("a", .required, .typ .intT), ("b", .required, .typ .intT)]
    Option.none Option.none []
    (fun ent _hm v hv => by simp [pyLookup] at hv)
    (by simp [missingKeys, requiredKeys, isReq, hasKey, pyLookup])
  rw [h]
  simp [missingKeys, requiredKeys, isReq, hasKey, pyLookup, sortStrs, insSorted,
    joinCS, pyReprStr]
  decide

/-- C3 (counterexample): the claim quantifies over every input that has an
undeclared key and no missing required key, but a declared key whose value
fails its sub-shape pre-empts the extra-key check: validating
`{"a": "x", "b": 2}` against `{"a": int}` fails with the instance-check
message for `"x"`, not with a `"Wrong keys in ..."` message. -/
theorem C3_counterexample :
    validateS (.dictLit [("a", .required, .typ .intT)]) Option.none
      (.dict Option.none [("a", .str "x"), ("b", .int 2)])
      = .error (.schemaError "'x' should be instance of <class 'int'>")
    ∧ "'x' should be instance of <class 'int'>"
        ≠ "Wrong keys in \x7b'a': 'x', 'b': 2\x7d: 'b'" := by
  constructor
  · simp [validateS, dictPass, pyLookup, isinst, instErrMsg, pyReprStr]
    decide
  · decide

/-- C3 (amended): dict shapes are closed-world: for every dict shape and
every input mapping whose declared present values all validate, in which
no required key is missing, and which contains at least one undeclared
key, validation fails with the message
`"Wrong keys in {data!r}: k1, k2"` listing the `repr`s of the offending
undeclared keys, sorted. -/
theorem C3_closed_world (entries : List (String × FieldMode × Shape))
    (e sub : Option String) (des : List (String × Val))
    (hvals : ∀ ent ∈ entries, ∀ v, pyLookup des ent.1 = some v →
      ∃ w, validateS ent.2.2 e v = .ok w)
    (hnomiss : missingKeys entries des = [])
    (hex : extraKeys entries des ≠ []) :
    validateS (.dictLit entries) e (.dict sub des)
      = .error (.schemaError ("Wrong keys in " ++ pyRepr (.dict sub des) ++ ": "
        ++ joinCS ((sortStrs (extraKeys entries des)).map pyReprStr))) :=
  validateS_wrongKeys hvals hnomiss hex

/-- C3 (witness): validating `{"a": 1, "b": 2}` against `{"a": int}` fails
listing `b` (as `'b'`) as the extra key. -/
theorem C3_closed_world_witness :
    validateS (.dictLit [("a", .required, .typ .intT)]) Option.none
      (.dict Option.none [("a", .int 1), ("b", .int 2)])
      = .error (.schemaError "Wrong keys in \x7b'a': 1, 'b': 2\x7d: 'b'") := by
  have h := C3_closed_world [("a", .required, .typ .intT)] Option.none Option.none
    [("a", .int 1), ("b", .int 2)]
    (fun ent hm v hv => by
      simp at hm
      subst hm
      simp [pyLookup] at hv
      subst hv
      exact ⟨.int 1, by simp [validateS, isinst]⟩)
    (by simp [missingKeys, requiredKeys, isReq, hasKey, pyLookup])
    (by simp [extraKeys, declaredKeys, List.contains, List.elem_cons])
  rw [h]
  simp [extraKeys, declaredKeys, List.contains, List.elem_cons, sortStrs, insSorted,
    joinCS, pyReprStr, pyRepr, pyReprEntries, String.intercalate]
  decide

/-- C1: a `Schemed` record's committed mapping always satisfies its
declared schema: after construction and any sequence of updates and
attribute assignments the committed mapping is a value the schema's
validation produced; a failing update leaves the committed mapping
verbatim; concretely, for the record `{x: 1.0, y: 2.0}` over
`{x: float, y: float}`, an update setting `x` to `"bad"` raises a
`SchemaError` and afterwards the committed mapping is unchanged, with
`x == 1.0` and `y == 2.0`. -/
theorem C1_record_update_atomic (entries : List (String × FieldMode × Shape))
    (kvs0 : List (String × Val)) (st0 : Val) (ops : List ROp)
    (hinit : recInit entries kvs0 = .ok st0) :
    SatSchema entries (ops.foldl (recStep entries) st0)
    ∧ (∀ st kvs ex, recUpdateV entries st kvs = .error ex →
        recStep entries st (.upd kvs) = st)
    ∧ recUpdateV pointEntries (.dict Option.none pointData) [("x", .str "bad")]
        = .error (.schemaError "'bad' should be instance of <class 'float'>")
    ∧ recStep pointEntries (.dict Option.none pointData) (.upd [("x", .str "bad")])
        = .dict Option.none pointData
    ∧ pyLookup pointData "x" = some (.float "1.0")
    ∧ pyLookup pointData "y" = some (.float "2.0") := by
  have hbad : recUpdateV pointEntries (.dict Option.none pointData) [("x", .str "bad")]
      = .error (.schemaError "'bad' should be instance of <class 'float'>") := by
    simp [recUpdateV, dictMerge, dictSet, validateS, dictPass, pyLookup, isinst,
      instErrMsg, pyReprStr, pyRepr, typeRepr, pointEntries, pointData]
  refine ⟨?_, ?_, hbad, ?_, ?_, ?_⟩
  · exact satSchema_foldl ops st0 (satSchema_of_update_ok hinit)
  · intro st kvs ex h
    simp [recStep, h]
  · simp [recStep, hbad]
  · simp [pointData, pyLookup]
  · simp [pointData, pyLookup]

/-- C1 (witness): the invariant instantiated for a concrete `Point` record
constructed from `{x: 1.0, y: 2.0}` and then hit by the failing update. -/
theorem C1_record_update_atomic_witness :
    recInit pointEntries pointData = .ok (.dict Option.none pointData)
    ∧ SatSchema pointEntries
        (([ROp.upd [("x", .str "bad")]]).foldl (recStep pointEntries)
          (.dict Option.none pointData)) := by
  have hinit : recInit pointEntries pointData = .ok (.dict Option.none pointData) := by
    simp [recInit, recUpdateV, dictMerge, dictSet, validateS, dictPass, pyLookup,
      isinst, isReq, defaultsFor, requiredKeys, extraKeys, declaredKeys, hasKey,
      pointEntries, pointData]
  exact ⟨hinit,
    (C1_record_update_atomic pointEntries pointData (.dict Option.none pointData)
      [ROp.upd [("x", .str "bad")]] hinit).1⟩

/-- C4: a shape exposing a callable `validate` attribute is dispatched
through that hook before any other interpretation — in particular a class
with a `validate` classmethod never reaches the `isinstance` branch; a
`SchemaError` raised by the hook is re-raised unchanged when no custom
message is configured, replaced by exactly the custom message when one is;
any other exception is wrapped into a `SchemaError` whose message is the
`repr` of the shape, `".validate("`, the `repr` of the data, `")"`, plus
`" raised "` and the exception's `repr` (hence it contains representations
of both the shape and the offending data). -/
theorem C4_validate_hook_dispatch (s : Shape) (rep : String)
    (hook : Val → Except Exc Val) (e : Option String) (data : Val)
    (hs : shapeHook s = some (rep, hook)) :
    (∀ t t' : PyType, validateS (.typHook t rep hook) e data
        = validateS (.typHook t' rep hook) e data)
    ∧ (∀ v, hook data = .ok v → validateS s e data = .ok v)
    ∧ (∀ m, hook data = .error (.schemaError m) →
        validateS s e data = .error (.schemaError (e.getD m)))
    ∧ (∀ ex, hook data = .error ex → (∀ m, ex ≠ .schemaError m) → e = Option.none →
        validateS s e data = .error (.schemaError
          (rep ++ ".validate(" ++ pyRepr data ++ ")" ++ " raised " ++ excRepr ex)))
    ∧ (∀ ex c, hook data = .error ex → e = some c →
        validateS s e data = .error (.schemaError c)) := by
  have hout : validateS s e data
      = pcallFmt e (hook data) (rep ++ ".validate(" ++ pyRepr data ++ ")") := by
    cases s <;> simp [shapeHook] at hs
    · obtain ⟨h1, h2⟩ := hs
      subst h1
      subst h2
      simp [validateS]
    · obtain ⟨h1, h2⟩ := hs
      subst h1
      subst h2
      simp [validateS]
  refine ⟨fun t t' => by simp [validateS], ?_, ?_, ?_, ?_⟩
  · intro v hv
    simp [hout, hv, pcallFmt]
  · intro m hm
    simp [hout, hm, pcallFmt]
  · intro ex hex hnse he
    subst he
    cases ex with
    | schemaError m => exact absurd rfl (hnse m)
    | valueError a => simp [hout, hex, pcallFmt]
    | otherExc r => simp [hout, hex, pcallFmt]
  · intro ex c hex he
    subst he
    cases ex <;> simp [hout, hex, pcallFmt]

/-- C4 (witness): a class shape whose `validate` classmethod raises a
`ValueError` is dispatched through the hook (not `isinstance`), and the
failure is wrapped with the shape's and the data's representations. -/
theorem C4_validate_hook_dispatch_witness :
    validateS (.typHook .strT "Foo" (fun _ => .error (.otherExc "ValueError('blargh')")))
      Option.none (.int 1)
      = .error (.schemaError "Foo.validate(1) raised ValueError('blargh')") := by
  have h := C4_validate_hook_dispatch
    (.typHook .strT "Foo" (fun _ => .error (.otherExc "ValueError('blargh')")))
    "Foo" (fun _ => .error (.otherExc "ValueError('blargh')")) Option.none (.int 1) rfl
  have h4 := h.2.2.2.1 (.otherExc "ValueError('blargh')") rfl
    (fun m hm => by exact absurd hm (by simp)) rfl
  rw [h4]
  simp [pyRepr, excRepr]
  decide

/-- C5: a container-literal shape first requires the input to be an
instance of the shape's own container kind (failing with the instance
message otherwise, even for other container kinds), then validates every
element against the First-Match combinator built from the shape's members,
and rebuilds the result with the input's own concrete container class, so
a subclass input yields a result carrying the same subclass tag. -/
theorem C5_container_literal (k : ContKind) (members : List Shape)
    (e sub : Option String) (elems vs : List Val) :
    (∀ data, isinst data (contType k) = false →
      validateS (.contLit k members) e data
        = .error (.schemaError (instErrMsg e data (contType k))))
    ∧ (List.Forall₂ (fun d v => orValidate members e d = .ok v) elems vs →
       validateS (.contLit k members) e (.cont k sub elems) = .ok (mkCont k sub vs))
    ∧ (∃ vs', mkCont k sub vs = .cont k sub vs') := by
  refine ⟨fun data h => contLit_wrong_kind h, ?_, ?_⟩
  · intro h
    have hel := validateElems_of_forall2 h
    simp [validateS, hel]
  · cases k
    · exact ⟨vs, rfl⟩
    · exact ⟨vs, rfl⟩
    · exact ⟨dedupPy vs, rfl⟩
    · exact ⟨dedupPy vs, rfl⟩

/-- C5 (witness): the schema `[int]` validates an input of a list subclass
(`MySeq`) to a value of that same subclass, and rejects a tuple input. -/
theorem C5_container_literal_witness :
    validateS (.contLit .listK [.typ .intT]) Option.none
      (.cont .listK (some "MySeq") [.int 1])
      = .ok (.cont .listK (some "MySeq") [.int 1])
    ∧ validateS (.contLit .listK [.typ .intT]) Option.none
        (.cont .tupleK Option.none [.int 1])
      = .error (.schemaError (instErrMsg Option.none
          (.cont .tupleK Option.none [.int 1]) .listT)) := by
  have h := C5_container_literal .listK [.typ .intT] Option.none (some "MySeq")
    [.int 1] [.int 1]
  constructor
  · have h2 := h.2.1 (by
      refine List.Forall₂.cons ?_ List.Forall₂.nil
      simp [orValidate, orLoop, validateS, isinst])
    simpa [mkCont] using h2
  · have h1 := (C5_container_literal .listK [.typ .intT] Option.none Option.none
      [] []).1 (.cont .tupleK Option.none [.int 1]) (by simp [isinst, contType])
    exact h1

/-- C6: the First-Match combinator `Or` tries its alternatives in
declaration order through `Schema(s, self.error)` and returns the first
success unchanged, discarding intermediate failures and never touching the
remaining alternatives; when every alternative fails — including the case
of zero alternatives, which fails on every input — it raises a
`SchemaError` carrying the custom message when configured and otherwise
the generic `"{data!r} did not validate {self!r}"` message; e.g.
`Or(int, dict)` validating `{}` returns `{}`. -/
theorem C6_or_first_match (args pre post : List Shape) (s : Shape)
    (oe : Option String) (data v : Val) :
    orValidate [] oe data = .error (.schemaError (oe.getD
      (pyRepr data ++ " did not validate " ++ orRepr [])))
    ∧ ((∀ m ∈ pre, ∃ msg, validateS m oe data = .error (.schemaError msg)) →
       validateS s oe data = .ok v →
       orValidate (pre ++ s :: post) oe data = .ok v)
    ∧ ((∀ m ∈ args, ∃ msg, validateS m oe data = .error (.schemaError msg)) →
       orValidate args oe data = .error (.schemaError (oe.getD
         (pyRepr data ++ " did not validate " ++ orRepr args))))
    ∧ orValidate [.typ .intT, .typ .dictT] Option.none (.dict Option.none [])
        = .ok (.dict Option.none []) := by
  refine ⟨by simp [orValidate, orLoop], ?_, ?_, ?_⟩
  · intro hpre hs
    exact orLoop_first_ok hpre hs
  · intro hall
    exact orLoop_all_fail hall
  · simp [orValidate, orLoop, validateS, isinst]

/-- C6 (witness): `Or(int, dict)` on `{}`: `int` fails, `dict` succeeds
first, and the empty combinator fails with the generic message. -/
theorem C6_or_first_match_witness :
    orValidate [.typ .intT, .typ .dictT] Option.none (.dict Option.none [])
      = .ok (.dict Option.none [])
    ∧ orValidate [] Option.none (.int 2)
      = .error (.schemaError "2 did not validate Or()") := by
  have h := C6_or_first_match [] [.typ .intT] [] (.typ .dictT) Option.none
    (.dict Option.none []) (.dict Option.none [])
  refine ⟨h.2.2.2, ?_⟩
  have h0 := (C6_or_first_match [] [] [] (.typ .intT) Option.none (.int 2) (.int 2)).1
  rw [h0]
  simp [pyRepr, orRepr, shapeReprList, joinCS, String.intercalate]
  decide

/-- C7 (counterexample): `Schemed` defines no `__eq__`, so `==` on records
is object identity; `FromPrimitive` applied to `ToPrimitive`'s output (a
plain dict, never an instance of the record class) constructs a brand-new
record object, so for the `Point` record built from the valid field set
`{x: 1.0, y: 2.0}` the round trip succeeds but
`R.FromPrimitive(R(f).ToPrimitive()) == R(f)` is `False`. -/
theorem C7_roundtrip_counterexample :
    recInit pointEntries pointData = .ok (.dict Option.none pointData)
    ∧ SchemedFromPrim "Point" pointEntries 2 (jsonableR (.recordv "Point" 1 pointData))
        = .ok (.recordv "Point" 2 pointData)
    ∧ pyEq (.recordv "Point" 2 pointData) (.recordv "Point" 1 pointData) = false := by
  refine ⟨?_, ?_, by simp [pyEq]⟩
  · simp [recInit, recUpdateV, dictMerge, dictSet, validateS, dictPass, pyLookup,
      isinst, isReq, defaultsFor, requiredKeys, extraKeys, declaredKeys, hasKey,
      pointEntries, pointData]
  · simp [SchemedFromPrim, jsonableR, isRecInst, recInit, recUpdateV, dictMerge,
      dictSet, validateS, dictPass, pyLookup, isinst, isReq, defaultsFor,
      requiredKeys, extraKeys, declaredKeys, hasKey, pointEntries, pointData]

/-- C7 (amended): for every record class and valid field set, the round
trip `FromPrimitive(ToPrimitive(R(f)))` constructs a *new* record whose
committed mapping is the result of re-validating the original record's
committed mapping; since `Schemed` defines no `__eq__`, `==` between the
round-tripped record and the original is object identity, which holds only
when they are the same object (for the `Point` example the two committed
mappings coincide, but the records are distinct objects). -/
theorem C7_roundtrip_revalidates (cls : String)
    (entries : List (String × FieldMode × Shape)) (fresh oid : Nat)
    (kvs C C' : List (String × Val)) (dsub dsub' : Option String)
    (_hinit : recInit entries kvs = .ok (.dict dsub C))
    (hreval : recInit entries C = .ok (.dict dsub' C')) :
    SchemedFromPrim cls entries fresh (jsonableR (.recordv cls oid C))
        = .ok (.recordv cls fresh C')
    ∧ pyEq (.recordv cls fresh C') (.recordv cls oid C) = decide (fresh = oid) := by
  constructor
  · simp [SchemedFromPrim, jsonableR, isRecInst, hreval]
  · simp [pyEq]

/-- C7 (witness): the amended round trip at the `Point` record: the
committed mapping survives re-validation verbatim, and the new record is
not `==` the original because its identity differs. -/
theorem C7_roundtrip_revalidates_witness :
    SchemedFromPrim "Point" pointEntries 2 (jsonableR (.recordv "Point" 1 pointData))
        = .ok (.recordv "Point" 2 pointData)
    ∧ pyEq (.recordv "Point" 2 pointData) (.recordv "Point" 1 pointData)
        = decide ((2 : Nat) = 1) := by
  have hval : recInit pointEntries pointData = .ok (.dict Option.none pointData) := by
    simp [recInit, recUpdateV, dictMerge, dictSet, validateS, dictPass, pyLookup,
      isinst, isReq, defaultsFor, requiredKeys, extraKeys, declaredKeys, hasKey,
      pointEntries, pointData]
  exact C7_roundtrip_revalidates "Point" pointEntries 2 1 pointData pointData
    pointData Option.none Option.none hval hval

/-- C8: every capability type returns an already-valid instance itself:
`Enum.validate`, `UUID.validate`, `Timestamp.validate` and
`Schemed.validate` all hit their `isinstance` fast path and return the
very argument (same object — the embedded functions return the input
value unchanged, identity tag included), so capability validation is
idempotent on already-valid instances. -/
theorem C8_capability_idempotent (cls : EnumCls) (parse conv : Val → Except Exc Val)
    (fresh : Nat) (rcls : String) (entries : List (String × FieldMode × Shape))
    (v : Val) :
    (isEnumInst cls v = true → EnumValidate cls v = .ok v)
    ∧ (isUUIDInst v = true → UUIDValidate parse fresh v = .ok v)
    ∧ (isTsInst v = true → TimestampValidate conv v = .ok v)
    ∧ (isRecInst rcls v = true → SchemedFromPrim rcls entries fresh v = .ok v) := by
  refine ⟨?_, ?_, ?_, ?_⟩
  · intro h; simp [EnumValidate, h]
  · intro h; simp [UUIDValidate, h]
  · intro h; simp [TimestampValidate, h]
  · intro h; simp [SchemedFromPrim, h]

/-- C8 (witness): one concrete already-valid instance of each capability
kind is returned unchanged. -/
theorem C8_capability_idempotent_witness :
    EnumValidate ⟨"Tristate", [("TRUE", .str "#t")]⟩ (.enumv "Tristate" "TRUE" "'#t'")
      = .ok (.enumv "Tristate" "TRUE" "'#t'")
    ∧ UUIDValidate (fun d => .error (.valueError (pyRepr d))) 7
        (.uuidv "5c2ddc84-bf99-47d2-a0da-3882b9d788ed" true 3)
      = .ok (.uuidv "5c2ddc84-bf99-47d2-a0da-3882b9d788ed" true 3)
    ∧ TimestampValidate (fun d => .error (.valueError (pyRepr d)))
        (.tsv "Timestamp" "Delorean(datetime=..., timezone='UTC')" 4)
      = .ok (.tsv "Timestamp" "Delorean(datetime=..., timezone='UTC')" 4)
    ∧ SchemedFromPrim "Point" pointEntries 9 (.recordv "Point" 5 pointData)
      = .ok (.recordv "Point" 5 pointData) := by
  have h1 := (C8_capability_idempotent ⟨"Tristate", [("TRUE", .str "#t")]⟩
    (fun d => .error (.valueError (pyRepr d))) (fun d => .error (.valueError (pyRepr d)))
    7 "Point" pointEntries (.enumv "Tristate" "TRUE" "'#t'")).1 (by simp [isEnumInst])
  have h2 := (C8_capability_idempotent ⟨"Tristate", [("TRUE", .str "#t")]⟩
    (fun d => .error (.valueError (pyRepr d))) (fun d => .error (.valueError (pyRepr d)))
    7 "Point" pointEntries
    (.uuidv "5c2ddc84-bf99-47d2-a0da-3882b9d788ed" true 3)).2.1 (by simp [isUUIDInst])
  have h3 := (C8_capability_idempotent ⟨"Tristate", [("TRUE", .str "#t")]⟩
    (fun d => .error (.valueError (pyRepr d))) (fun d => .error (.valueError (pyRepr d)))
    7 "Point" pointEntries
    (.tsv "Timestamp" "Delorean(datetime=..., timezone='UTC')" 4)).2.2.1
    (by simp [isTsInst])
  have h4 := (C8_capability_idempotent ⟨"Tristate", [("TRUE", .str "#t")]⟩
    (fun d => .error (.valueError (pyRepr d))) (fun d => .error (.valueError (pyRepr d)))
    9 "Point" pointEntries (.recordv "Point" 5 pointData)).2.2.2 (by simp [isRecInst])
  exact ⟨h1, h2, h3, h4⟩

/-- C9: `Schemed.validate` (`FromPrimitive`) on a value that is neither an
instance of the record class nor a mapping raises `ValueError(data)` — an
error kind distinct from the engine's `SchemaError` — whereas a mapping is
passed to the constructor, which schema-validates it and commits the
result into a new record. -/
theorem C9_fromprimitive_type_mismatch (cls : String)
    (entries : List (String × FieldMode × Shape)) (fresh : Nat) (data : Val)
    (committed des : List (String × Val)) (dsub sub : Option String) :
    (isRecInst cls data = false → (∀ sub' des', data ≠ .dict sub' des') →
      SchemedFromPrim cls entries fresh data = .error (.valueError (pyRepr data)))
    ∧ (∀ m a, Exc.valueError a ≠ Exc.schemaError m)
    ∧ (recInit entries des = .ok (.dict dsub committed) →
      SchemedFromPrim cls entries fresh (.dict sub des)
        = .ok (.recordv cls fresh committed)) := by
  refine ⟨?_, ?_, ?_⟩
  case refine_2 =>
    intro m a h
    simp at h
  · intro hrec hdict
    cases data with
    | dict sub' des' => exact absurd rfl (hdict sub' des')
    | pynone => simp [SchemedFromPrim, isRecInst]
    | bool b => simp [SchemedFromPrim, isRecInst]
    | int n => simp [SchemedFromPrim, isRecInst]
    | float l => simp [SchemedFromPrim, isRecInst]
    | str s => simp [SchemedFromPrim, isRecInst]
    | cont k s es => simp [SchemedFromPrim, isRecInst]
    | enumv c m vr => simp [SchemedFromPrim, isRecInst]
    | uuidv hx g o => simp [SchemedFromPrim, isRecInst]
    | tsv c r o => simp [SchemedFromPrim, isRecInst]
    | recordv c o f => simp [SchemedFromPrim, hrec]
  · intro hval
    simp [SchemedFromPrim, isRecInst, hval]

/-- C9 (witness): `Point.validate("foobar")` raises `ValueError`, and
`Point.validate({"x": 1.0, "y": 2.0})` builds a validated record. -/
theorem C9_fromprimitive_type_mismatch_witness :
    SchemedFromPrim "Point" pointEntries 3 (.str "foobar")
      = .error (.valueError "'foobar'")
    ∧ SchemedFromPrim "Point" pointEntries 3 (.dict Option.none pointData)
      = .ok (.recordv "Point" 3 pointData) := by
  have h := C9_fromprimitive_type_mismatch "Point" pointEntries 3 (.str "foobar")
    pointData pointData Option.none Option.none
  constructor
  · have h1 := h.1 (by simp [isRecInst]) (fun sub' des' => by simp)
    rw [h1]
    simp [pyRepr, pyReprStr]
  · exact h.2.2 (by
      simp [recInit, recUpdateV, dictMerge, dictSet, validateS, dictPass, pyLookup,
        isinst, isReq, defaultsFor, requiredKeys, extraKeys, declaredKeys, hasKey,
        pointEntries, pointData])

/-- C10: when a dict shape declares a key as `Optional` with a configured
default and that key is absent from the input, a successful validation
inserts the default value into the result verbatim, without validating it
against the Optional's wrapped schema (the witness uses the shape
`{"k": Optional(int, default="nope")}`, whose default is not an `int`). -/
theorem C10_optional_default_unvalidated
    (entries : List (String × FieldMode × Shape)) (e sub : Option String)
    (des : List (String × Val)) (k : String) (d res : Val) (sh : Shape)
    (hnodup : (declaredKeys entries).Nodup)
    (hmem : (k, FieldMode.optDefault d, sh) ∈ entries)
    (habs : hasKey des k = false)
    (hok : validateS (.dictLit entries) e (.dict sub des) = .ok res) :
    ∃ resE, res = .dict sub resE ∧ pyLookup resE k = some d := by
  obtain ⟨ne, hdp, hkeys, hres⟩ := validateS_dictLit_ok hok
  refine ⟨ne ++ defaultsFor entries (seenKeys entries des), hres, ?_⟩
  have hnotseen : k ∉ seenKeys entries des := fun hc => by
    have ht := (mem_seenKeys.1 hc).2
    rw [habs] at ht
    exact Bool.false_ne_true ht
  have hnotne : k ∉ ne.map fun kv => kv.1 := by
    rw [hkeys]
    exact hnotseen
  rw [pyLookup_append_of_not_mem hnotne]
  refine pyLookup_defaultsFor hnodup hmem ?_
  rw [contains_eq_decide]
  simp [hnotseen]

/-- C10 (witness): `{"k": Optional(int, default="nope")}` validating `{}`
succeeds and returns `{"k": "nope"}`, with the non-`int` default inserted
unvalidated. -/
theorem C10_optional_default_unvalidated_witness :
    validateS (.dictLit [("k", .optDefault (.str "nope"), .typ .intT)]) Option.none
      (.dict Option.none []) = .ok (.dict Option.none [("k", .str "nope")])
    ∧ (∃ resE, (Val.dict Option.none [("k", .str "nope")]) = .dict Option.none resE
        ∧ pyLookup resE "k" = some (.str "nope"))
    ∧ validateS (.typ .intT) Option.none (.str "nope")
      = .error (.schemaError "'nope' should be instance of <class 'int'>") := by
  have hok : validateS (.dictLit [("k", .optDefault (.str "nope"), .typ .intT)])
      Option.none (.dict Option.none [])
      = .ok (.dict Option.none [("k", .str "nope")]) := by
    simp [validateS, dictPass, pyLookup, isReq, defaultsFor, requiredKeys, extraKeys,
      declaredKeys, missingKeys, seenKeys, hasKey]
  refine ⟨hok, ?_, ?_⟩
  · exact C10_optional_default_unvalidated
      [("k", .optDefault (.str "nope"), .typ .intT)] Option.none Option.none []
      "k" (.str "nope") (.dict Option.none [("k", .str "nope")]) (.typ .intT)
      (by simp [declaredKeys]) (by simp) (by simp [hasKey, pyLookup]) hok
  · simp [validateS, isinst, instErrMsg, pyReprStr, pyRepr, typeRepr]

end Gnarl
